import Mathlib

/-!
Verification of the AGX shader-compiler instruction-selection and CFG-construction
core (`src/asahi/compiler/agx_compile.h`, functions `agx_emit_load_const`,
`agx_emit_load_vary`, `agx_emit_store_vary`, `agx_emit_fragment_out`,
`agx_emit_intrinsic`, `agx_alu_src_index`, `agx_emit_alu`, `emit_block`,
`emit_cf_list`, and the driver epilogue of `agx_compile_shader_nir`).

The C code is shallowly embedded: every fallible emission function becomes a Lean
function returning `Except String (List AgxInstr)` (the list is the sequence of
target pseudo-instructions appended to the current block, in order); a failed
`assert` or an `unreachable` becomes `Except.error` with the corresponding
diagnostic text.  The NIR data structures and the AGX operand/instruction
constructors live in headers outside the excerpt; they are modelled from the
specification's data model where so noted.
-/

namespace AGX

/-- Shader stage (`gl_shader_stage`); only the vertex and fragment stages are
distinguished by the selector, every other stage is unsupported. -/
inductive Stage where
  | vertex
  | fragment
  | otherStage
deriving DecidableEq, Repr

/-- The NIR intrinsic identities that `agx_emit_intrinsic` dispatches on.  All
intrinsics outside the explicit case list are represented by `otherIntr`,
carrying the intrinsic's name (`nir_intrinsic_infos[..].name`). -/
inductive NirIntrinsicKind where
  | load_barycentric_pixel
  | load_barycentric_centroid
  | load_barycentric_sample
  | load_barycentric_at_sample
  | load_barycentric_at_offset
  | load_interpolated_input
  | load_input
  | store_output
  | otherIntr (name : String)
deriving DecidableEq, Repr

/-- An SSA definition: index, bit width, and component count
(`nir_ssa_def`-style destination). -/
structure NirSSADef where
  index : Nat
  bit_size : Nat
  num_components : Nat
deriving DecidableEq, Repr

/-- A NIR source operand.  `constVal = some v` models `nir_src_is_const`
returning true with `nir_src_as_uint` returning `v`; `parentIntrinsic` models
`nir_src_as_intrinsic` (the intrinsic identity of the defining instruction,
`none` when the source is not defined by an intrinsic). -/
structure NirSrc where
  index : Nat
  bit_size : Nat
  num_components : Nat
  constVal : Option Nat
  parentIntrinsic : Option NirIntrinsicKind
deriving DecidableEq, Repr

/-- Modelled from the spec: an AGX operand references either a virtual register
(SSA-index-based, not yet physically assigned), an immediate value, or is the
null operand (`agx_null()`). -/
inductive AgxIndex where
  | null
  | reg (index : Nat) (size : Nat)
  | imm (value : Nat)
deriving DecidableEq, Repr

/-- Modelled from the spec: a target pseudo-instruction — a record of an opcode
tag, destination operand, up to four source operands and opcode-specific
immediate fields (literal constant, write mask, format descriptor).  The
`ld_vary` mask is `none` when the builder default is kept (`components == 4`)
and `some m` when `agx_emit_load_vary` explicitly attaches the mask `m`. -/
inductive AgxInstr where
  | mov_imm (dst : AgxIndex) (imm : Nat)
  | ld_vary (dst : AgxIndex) (index : AgxIndex) (mask : Option Nat)
  | st_vary (index : AgxIndex) (src : AgxIndex)
  | writeout (imm : Nat)
  | blend (src : AgxIndex) (format : Nat)
  | p_combine (dst s0 s1 s2 s3 : AgxIndex)
  | p_extract (dst : AgxIndex) (src : AgxIndex) (channel : Nat)
  | stop
  | trap
deriving DecidableEq, Repr

/-- Modelled from the spec: `agx_get_index` names the virtual register for an
SSA index at a given size. -/
def agx_get_index (index : Nat) (size : Nat) : AgxIndex :=
  AgxIndex.reg index size

/-- Modelled from the spec: `agx_immediate` wraps a literal value. -/
def agx_immediate (v : Nat) : AgxIndex :=
  AgxIndex.imm v

/-- Modelled from the spec: `agx_src_index` turns a NIR source into the virtual
register operand of its SSA definition. -/
def agx_src_index (s : NirSrc) : AgxIndex :=
  AgxIndex.reg s.index s.bit_size

/-- Modelled from the spec: `agx_dest_index` turns a NIR destination into the
virtual register operand of its SSA definition. -/
def agx_dest_index (d : NirSSADef) : AgxIndex :=
  AgxIndex.reg d.index d.bit_size

/-- `BITFIELD_MASK(n)` from util: the `n` lowest bits set. -/
def BITFIELD_MASK (n : Nat) : Nat :=
  2 ^ n - 1

/-- `nir_const_value_as_uint`: the constant's bit pattern at the given width. -/
def nir_const_value_as_uint (v : Nat) (bit_size : Nat) : Nat :=
  v % 2 ^ bit_size

/-- A `nir_load_const_instr`: destination SSA definition plus the scalar
constant value (first component). -/
structure NirLoadConst where
  dest : NirSSADef
  value : Nat
deriving DecidableEq, Repr

/-- A `nir_intrinsic_instr`: intrinsic identity, destination, component count
and the `base` / `component` / `write_mask` indexed constants, plus the source
operand list. -/
structure NirIntrinsic where
  intrinsic : NirIntrinsicKind
  dest : NirSSADef
  num_components : Nat
  base : Nat
  component : Nat
  write_mask : Nat
  srcs : List NirSrc
deriving DecidableEq, Repr

/-- `nir_get_io_offset_src`: the source holding the I/O offset — source 0 for
`load_input`, source 1 for `load_interpolated_input` and `store_output`. -/
def nir_get_io_offset_src (i : NirIntrinsic) : Option NirSrc :=
  match i.intrinsic with
  | NirIntrinsicKind.load_input => i.srcs[0]?
  | NirIntrinsicKind.load_interpolated_input => i.srcs[1]?
  | NirIntrinsicKind.store_output => i.srcs[1]?
  | _ => none

/-- A shader-output variable (`nir_variable`): driver location, declared
location (`FRAG_RESULT_*` for fragment outputs) and dual-source index. -/
structure NirVariable where
  driver_location : Nat
  location : Nat
  dual_index : Nat
deriving DecidableEq, Repr

/-- `FRAG_RESULT_COLOR` from the GL shader enums. -/
def FRAG_RESULT_COLOR : Nat := 2

/-- `FRAG_RESULT_DATA0` from the GL shader enums. -/
def FRAG_RESULT_DATA0 : Nat := 4

/-- `nir_find_variable_with_driver_location` restricted to the shader-out
variable list: the first variable whose driver location matches. -/
def nir_find_variable_with_driver_location (vars : List NirVariable)
    (loc : Nat) : Option NirVariable :=
  vars.find? (fun v => v.driver_location = loc)

/-- The compilation context visible to the selector: the shader stage, the
shader's output-variable list (for `b->shader->nir` lookups) and the active
key's per-render-target tile-buffer formats (`key->fs.tib_formats`). -/
structure AgxShader where
  stage : Stage
  nir_outs : List NirVariable
  tib_formats : List Nat
deriving DecidableEq, Repr

/-- `agx_emit_load_const`: asserts one component and bit width 16 or 32, then
emits a single move-immediate carrying the constant's bit pattern. -/
def agx_emit_load_const (instr : NirLoadConst) : Except String (List AgxInstr) :=
  let bit_size := instr.dest.bit_size
  if instr.dest.num_components ≠ 1 then
    Except.error "assert: instr->def.num_components == 1"
  else if ¬ (bit_size = 16 ∨ bit_size = 32) then
    Except.error "assert: bit_size == 16 || bit_size == 32"
  else
    Except.ok [AgxInstr.mov_imm
      (agx_get_index instr.dest.index bit_size)
      (nir_const_value_as_uint instr.value bit_size)]

/-- `agx_emit_load_attr`: fatal stub for vertex attribute loads. -/
def agx_emit_load_attr (_instr : NirIntrinsic) : Except String (List AgxInstr) :=
  Except.error "unreachable: stub"

/-- `agx_emit_load_vary`: fragment interpolated-input load.  Requires a smooth
(`load_interpolated_input`) source whose barycentric parent is
`load_barycentric_pixel` and a compile-time-constant offset; emits one
load-varying at immediate index `base + offset`, attaching the component mask
when fewer than four components are requested. -/
def agx_emit_load_vary (instr : NirIntrinsic) : Except String (List AgxInstr) :=
  let components := instr.num_components
  let smooth := instr.intrinsic = NirIntrinsicKind.load_interpolated_input
  if smooth then
    match instr.srcs[0]? with
    | none => Except.error "assert: parent"
    | some s0 =>
      match s0.parentIntrinsic with
      | none => Except.error "assert: parent"
      | some parent =>
        if parent ≠ NirIntrinsicKind.load_barycentric_pixel then
          Except.error "assert: parent->intrinsic == nir_intrinsic_load_barycentric_pixel"
        else
          match nir_get_io_offset_src instr with
          | none => Except.error "assert: offset source exists"
          | some off =>
            match off.constVal with
            | none => Except.error "assert: nir_src_is_const - todo: indirects"
            | some o =>
              let imm_index := instr.base + o
              Except.ok [AgxInstr.ld_vary (agx_dest_index instr.dest)
                (agx_immediate imm_index)
                (if components ≠ 4 then some (BITFIELD_MASK components) else none)]
  else
    Except.error "unreachable: todo: flat varyings"

/-- `agx_emit_store_vary`: vertex output store.  Requires a constant offset and
a write mask of exactly 0x1; emits one store-varying at immediate index
`4 * base + component + offset`. -/
def agx_emit_store_vary (instr : NirIntrinsic) : Except String (List AgxInstr) :=
  match nir_get_io_offset_src instr with
  | none => Except.error "assert: offset source exists"
  | some off =>
    match off.constVal with
    | none => Except.error "assert: nir_src_is_const - todo: indirects"
    | some o =>
      let imm_index := 4 * instr.base + instr.component + o
      if instr.write_mask ≠ 0x1 then
        Except.error "assert: nir_intrinsic_write_mask(instr) == 0x1"
      else
        match instr.srcs[0]? with
        | none => Except.error "assert: value source exists"
        | some v =>
          Except.ok [AgxInstr.st_vary (agx_immediate imm_index) (agx_src_index v)]

/-- `agx_emit_fragment_out`: fragment render-target store.  Resolves the output
variable by driver location, rejects dual-source blending and any location
other than the implicit color / data-0 render target, then emits the two fixed
writeout-control instructions followed by one blend instruction carrying the
stored value and the key's render-target format. -/
def agx_emit_fragment_out (sh : AgxShader) (instr : NirIntrinsic) :
    Except String (List AgxInstr) :=
  match nir_find_variable_with_driver_location sh.nir_outs instr.base with
  | none => Except.error "assert: var"
  | some var =>
    if var.dual_index ≠ 0 then
      Except.error "assert: var->data.index == 0 - todo: dual-source blending"
    else
      let loc := var.location
      if ¬ (loc = FRAG_RESULT_COLOR ∨ loc = FRAG_RESULT_DATA0) then
        Except.error "assert: loc == FRAG_RESULT_COLOR || loc == FRAG_RESULT_DATA0 - todo: MRT"
      else
        let rt := if loc = FRAG_RESULT_COLOR then 0 else loc - FRAG_RESULT_DATA0
        match instr.srcs[0]? with
        | none => Except.error "assert: value source exists"
        | some s =>
          Except.ok [AgxInstr.writeout 0xC200, AgxInstr.writeout 0x000C,
            AgxInstr.blend (agx_src_index s) (sh.tib_formats.getD rt 0)]

/-- `agx_emit_intrinsic`: dispatch by intrinsic identity, then by shader stage.
The five barycentric intrinsics are handled later via `load_vary` and emit
nothing; every unrecognized intrinsic is fatal with a diagnostic naming it. -/
def agx_emit_intrinsic (sh : AgxShader) (instr : NirIntrinsic) :
    Except String (List AgxInstr) :=
  match instr.intrinsic with
  | NirIntrinsicKind.load_barycentric_pixel => Except.ok []
  | NirIntrinsicKind.load_barycentric_centroid => Except.ok []
  | NirIntrinsicKind.load_barycentric_sample => Except.ok []
  | NirIntrinsicKind.load_barycentric_at_sample => Except.ok []
  | NirIntrinsicKind.load_barycentric_at_offset => Except.ok []
  | NirIntrinsicKind.load_interpolated_input =>
    match sh.stage with
    | Stage.fragment => agx_emit_load_vary instr
    | Stage.vertex => agx_emit_load_attr instr
    | Stage.otherStage => Except.error "unreachable: Unsupported shader stage"
  | NirIntrinsicKind.load_input =>
    match sh.stage with
    | Stage.fragment => agx_emit_load_vary instr
    | Stage.vertex => agx_emit_load_attr instr
    | Stage.otherStage => Except.error "unreachable: Unsupported shader stage"
  | NirIntrinsicKind.store_output =>
    match sh.stage with
    | Stage.fragment => agx_emit_fragment_out sh instr
    | Stage.vertex => agx_emit_store_vary instr
    | Stage.otherStage => Except.error "unreachable: Unsupported shader stage"
  | NirIntrinsicKind.otherIntr name =>
    Except.error ("Unhandled intrinsic " ++ name)

/-- A fatal emission outcome: the computation ended in `Except.error`. -/
def fatal {α : Type} (r : Except String α) : Prop :=
  r.toOption = none

instance {α : Type} (r : Except String α) : Decidable (fatal r) := by
  unfold fatal
  cases r.toOption with
  | none => exact Decidable.isTrue rfl
  | some a => exact Decidable.isFalse (by simp)

/-- Spec statement for C5 (constant loads).  A one-component constant of width
16 or 32 emits exactly one move-immediate carrying the constant's bit pattern;
width 64 or more than one component is fatal. -/
theorem agx_emit_load_const_spec (instr : NirLoadConst) :
    ((instr.dest.num_components = 1 ∧
        (instr.dest.bit_size = 16 ∨ instr.dest.bit_size = 32)) →
      agx_emit_load_const instr =
        Except.ok [AgxInstr.mov_imm
          (agx_get_index instr.dest.index instr.dest.bit_size)
          (nir_const_value_as_uint instr.value instr.dest.bit_size)]) ∧
    ((instr.dest.bit_size = 64 ∨ 1 < instr.dest.num_components) →
      fatal (agx_emit_load_const instr)) := by
  constructor
  · rintro ⟨hc, hb⟩
    rcases hb with hb | hb <;> simp [agx_emit_load_const, hc, hb]
  · rintro (hb | hc)
    · by_cases hc : instr.dest.num_components = 1
      · simp [agx_emit_load_const, fatal, Except.toOption, hc, hb]
      · simp [agx_emit_load_const, fatal, Except.toOption, hc]
    · have hne : instr.dest.num_components ≠ 1 := by omega
      simp [agx_emit_load_const, fatal, Except.toOption, hne]

/-- Witness for C5 at a concrete 16-bit constant. -/
theorem agx_emit_load_const_spec_witness :
    agx_emit_load_const ⟨⟨3, 16, 1⟩, 0xABCD⟩ =
      Except.ok [AgxInstr.mov_imm (agx_get_index 3 16) 0xABCD] :=
  (agx_emit_load_const_spec ⟨⟨3, 16, 1⟩, 0xABCD⟩).1 ⟨rfl, Or.inl rfl⟩

/-- Spec statement for C3 (fragment interpolated-input loads).  With a smooth
(pixel-barycentric) source and a constant offset `o`, the selector emits one
load-varying at immediate index `base + o`, with the mask of the `c` lowest
bits attached when `c ≠ 4`; a dynamic offset is fatal, and a flat
(non-interpolated) input load is fatal. -/
theorem agx_emit_load_vary_spec (sh : AgxShader) (instr : NirIntrinsic)
    (hst : sh.stage = Stage.fragment) :
    ((instr.intrinsic = NirIntrinsicKind.load_interpolated_input) →
      ∀ s0, instr.srcs[0]? = some s0 →
      s0.parentIntrinsic = some NirIntrinsicKind.load_barycentric_pixel →
      ∀ off, instr.srcs[1]? = some off →
        ((∀ o, off.constVal = some o →
          agx_emit_intrinsic sh instr =
            Except.ok [AgxInstr.ld_vary (agx_dest_index instr.dest)
              (agx_immediate (instr.base + o))
              (if instr.num_components ≠ 4 then
                 some (BITFIELD_MASK instr.num_components) else none)]) ∧
         (off.constVal = none → fatal (agx_emit_intrinsic sh instr)))) ∧
    ((instr.intrinsic = NirIntrinsicKind.load_interpolated_input) →
      ∀ s0, instr.srcs[0]? = some s0 →
      ∀ p, s0.parentIntrinsic = some p →
      p ≠ NirIntrinsicKind.load_barycentric_pixel →
      fatal (agx_emit_intrinsic sh instr)) ∧
    ((instr.intrinsic = NirIntrinsicKind.load_input) →
      fatal (agx_emit_intrinsic sh instr)) := by
  refine ⟨?_, ?_, ?_⟩
  · intro hin s0 hs0 hpar off hoff
    constructor
    · intro o ho
      simp [agx_emit_intrinsic, hst, hin, agx_emit_load_vary, hs0, hpar,
        nir_get_io_offset_src, hoff, ho]
    · intro ho
      simp [agx_emit_intrinsic, hst, hin, agx_emit_load_vary, hs0, hpar,
        nir_get_io_offset_src, hoff, ho, fatal, Except.toOption]
  · intro hin s0 hs0 p hp hnp
    simp [agx_emit_intrinsic, hst, hin, agx_emit_load_vary, hs0, hp, hnp,
      fatal, Except.toOption]
  · intro hin
    have hne : instr.intrinsic ≠ NirIntrinsicKind.load_interpolated_input := by
      rw [hin]; intro h; cases h
    simp [agx_emit_intrinsic, hst, hin, agx_emit_load_vary, hne, fatal,
      Except.toOption]

/-- Witness for C3: a two-component smooth load at base 5, offset 2 yields a
load-varying at index 7 with mask 0b11. -/
theorem agx_emit_load_vary_spec_witness :
    agx_emit_intrinsic ⟨Stage.fragment, [], []⟩
      ⟨NirIntrinsicKind.load_interpolated_input, ⟨9, 32, 2⟩, 2, 5, 0, 0,
        [⟨7, 32, 2, none, some NirIntrinsicKind.load_barycentric_pixel⟩,
         ⟨8, 32, 1, some 2, none⟩]⟩ =
      Except.ok [AgxInstr.ld_vary (AgxIndex.reg 9 32) (AgxIndex.imm 7)
        (some 3)] := by
  have h := (agx_emit_load_vary_spec ⟨Stage.fragment, [], []⟩
    ⟨NirIntrinsicKind.load_interpolated_input, ⟨9, 32, 2⟩, 2, 5, 0, 0,
      [⟨7, 32, 2, none, some NirIntrinsicKind.load_barycentric_pixel⟩,
       ⟨8, 32, 1, some 2, none⟩]⟩ rfl).1 rfl
    ⟨7, 32, 2, none, some NirIntrinsicKind.load_barycentric_pixel⟩ rfl rfl
    ⟨8, 32, 1, some 2, none⟩ rfl
  exact h.1 2 rfl

/-- Spec statement for C4 (vertex output stores).  With a constant offset the
selector emits one store-varying at immediate index `4*base + component + o`
when the write mask is exactly 0b1; any other write mask is fatal. -/
theorem agx_emit_store_vary_spec (sh : AgxShader) (instr : NirIntrinsic)
    (hst : sh.stage = Stage.vertex)
    (hin : instr.intrinsic = NirIntrinsicKind.store_output) :
    ((instr.write_mask = 0x1) →
      ∀ off o v, instr.srcs[1]? = some off → off.constVal = some o →
        instr.srcs[0]? = some v →
        agx_emit_intrinsic sh instr =
          Except.ok [AgxInstr.st_vary
            (agx_immediate (4 * instr.base + instr.component + o))
            (agx_src_index v)]) ∧
    ((instr.write_mask ≠ 0x1) → fatal (agx_emit_intrinsic sh instr)) := by
  constructor
  · intro hm off o v hoff ho hv
    simp [agx_emit_intrinsic, hst, hin, agx_emit_store_vary,
      nir_get_io_offset_src, hoff, ho, hm, hv]
  · intro hm
    match hoff : instr.srcs[1]? with
    | none =>
      simp [agx_emit_intrinsic, hst, hin, agx_emit_store_vary,
        nir_get_io_offset_src, hoff, fatal, Except.toOption]
    | some off =>
      match ho : off.constVal with
      | none =>
        simp [agx_emit_intrinsic, hst, hin, agx_emit_store_vary,
          nir_get_io_offset_src, hoff, ho, fatal, Except.toOption]
      | some o =>
        simp [agx_emit_intrinsic, hst, hin, agx_emit_store_vary,
          nir_get_io_offset_src, hoff, ho, hm, fatal, Except.toOption]

/-- Witness for C4: base 3, component 2, offset 1 with mask 0b1 yields a
store-varying at index 15. -/
theorem agx_emit_store_vary_spec_witness :
    agx_emit_intrinsic ⟨Stage.vertex, [], []⟩
      ⟨NirIntrinsicKind.store_output, ⟨0, 32, 1⟩, 1, 3, 2, 1,
        [⟨4, 32, 1, none, none⟩, ⟨5, 32, 1, some 1, none⟩]⟩ =
      Except.ok [AgxInstr.st_vary (AgxIndex.imm 15) (AgxIndex.reg 4 32)] :=
  (agx_emit_store_vary_spec ⟨Stage.vertex, [], []⟩
    ⟨NirIntrinsicKind.store_output, ⟨0, 32, 1⟩, 1, 3, 2, 1,
      [⟨4, 32, 1, none, none⟩, ⟨5, 32, 1, some 1, none⟩]⟩ rfl rfl).1 rfl
    ⟨5, 32, 1, some 1, none⟩ 1 ⟨4, 32, 1, none, none⟩ rfl rfl rfl

/-- Spec statement for C1 (fragment render-target stores).  When the stored
variable resolves to render target 0 — the implicit color location or the
explicit data-0 location — the selector emits exactly, in order, writeout
0xC200, writeout 0x000C, and one blend carrying the stored value and the
key's render-target-0 format; a variable resolving to render-target index 1
or greater is fatal. -/
theorem agx_emit_fragment_out_spec (sh : AgxShader) (instr : NirIntrinsic)
    (var : NirVariable)
    (hst : sh.stage = Stage.fragment)
    (hin : instr.intrinsic = NirIntrinsicKind.store_output)
    (hvar : nir_find_variable_with_driver_location sh.nir_outs instr.base =
      some var)
    (hdual : var.dual_index = 0) :
    ((var.location = FRAG_RESULT_COLOR ∨ var.location = FRAG_RESULT_DATA0) →
      ∀ s, instr.srcs[0]? = some s →
        agx_emit_intrinsic sh instr =
          Except.ok [AgxInstr.writeout 0xC200, AgxInstr.writeout 0x000C,
            AgxInstr.blend (agx_src_index s) (sh.tib_formats.getD 0 0)]) ∧
    (∀ k, 1 ≤ k → var.location = FRAG_RESULT_DATA0 + k →
      fatal (agx_emit_intrinsic sh instr)) := by
  constructor
  · intro hloc s hs
    rcases hloc with hloc | hloc <;>
      simp [agx_emit_intrinsic, hst, hin, agx_emit_fragment_out, hvar, hdual,
        hloc, hs, FRAG_RESULT_COLOR, FRAG_RESULT_DATA0]
  · intro k hk hloc
    have h1 : var.location ≠ FRAG_RESULT_COLOR := by
      rw [hloc]; unfold FRAG_RESULT_COLOR FRAG_RESULT_DATA0; omega
    have h2 : var.location ≠ FRAG_RESULT_DATA0 := by
      rw [hloc]; unfold FRAG_RESULT_DATA0; omega
    simp [agx_emit_intrinsic, hst, hin, agx_emit_fragment_out, hvar, hdual,
      h1, h2, fatal, Except.toOption]

/-- Witness for C1: a store to the implicit color output emits writeout 0xC200,
writeout 0x000C, then a blend with the key's render-target-0 format. -/
theorem agx_emit_fragment_out_spec_witness :
    agx_emit_intrinsic ⟨Stage.fragment, [⟨0, 2, 0⟩], [0xAA, 0xBB]⟩
      ⟨NirIntrinsicKind.store_output, ⟨0, 32, 4⟩, 4, 0, 0, 0xF,
        [⟨6, 32, 4, none, none⟩, ⟨7, 32, 1, some 0, none⟩]⟩ =
      Except.ok [AgxInstr.writeout 0xC200, AgxInstr.writeout 0x000C,
        AgxInstr.blend (AgxIndex.reg 6 32) 0xAA] :=
  (agx_emit_fragment_out_spec ⟨Stage.fragment, [⟨0, 2, 0⟩], [0xAA, 0xBB]⟩
    ⟨NirIntrinsicKind.store_output, ⟨0, 32, 4⟩, 4, 0, 0, 0xF,
      [⟨6, 32, 4, none, none⟩, ⟨7, 32, 1, some 0, none⟩]⟩ ⟨0, 2, 0⟩
    rfl rfl rfl rfl).1 (Or.inl rfl) ⟨6, 32, 4, none, none⟩ rfl

/-- A fragment interpolated-input load never succeeds with an empty emission:
every successful path emits exactly one load-varying instruction. -/
theorem agx_emit_load_vary_ne_ok_nil (instr : NirIntrinsic) :
    agx_emit_load_vary instr ≠ Except.ok [] := by
  unfold agx_emit_load_vary
  repeat' split <;> try simp

/-- A vertex output store never succeeds with an empty emission: every
successful path emits exactly one store-varying instruction. -/
theorem agx_emit_store_vary_ne_ok_nil (instr : NirIntrinsic) :
    agx_emit_store_vary instr ≠ Except.ok [] := by
  unfold agx_emit_store_vary
  repeat' split <;> try simp

/-- A fragment render-target store never succeeds with an empty emission:
every successful path emits the two writeouts and the blend. -/
theorem agx_emit_fragment_out_ne_ok_nil (sh : AgxShader)
    (instr : NirIntrinsic) :
    agx_emit_fragment_out sh instr ≠ Except.ok [] := by
  unfold agx_emit_fragment_out
  repeat' split <;> try simp

/-- Spec statement for C10 (barycentric intrinsics are frame-neutral): each of
the five barycentric load intrinsics succeeds and appends zero
pseudo-instructions. -/
theorem agx_emit_intrinsic_barycentric_spec (sh : AgxShader)
    (instr : NirIntrinsic)
    (h : instr.intrinsic = NirIntrinsicKind.load_barycentric_pixel ∨
         instr.intrinsic = NirIntrinsicKind.load_barycentric_centroid ∨
         instr.intrinsic = NirIntrinsicKind.load_barycentric_sample ∨
         instr.intrinsic = NirIntrinsicKind.load_barycentric_at_sample ∨
         instr.intrinsic = NirIntrinsicKind.load_barycentric_at_offset) :
    agx_emit_intrinsic sh instr = Except.ok [] := by
  rcases h with h | h | h | h | h <;> simp [agx_emit_intrinsic, h]

/-- Witness for C10 at a concrete centroid-barycentric intrinsic. -/
theorem agx_emit_intrinsic_barycentric_spec_witness :
    agx_emit_intrinsic ⟨Stage.fragment, [⟨0, 2, 0⟩], [1]⟩
      ⟨NirIntrinsicKind.load_barycentric_centroid, ⟨2, 32, 2⟩, 2, 0, 0, 0, []⟩ =
      Except.ok [] :=
  agx_emit_intrinsic_barycentric_spec ⟨Stage.fragment, [⟨0, 2, 0⟩], [1]⟩
    ⟨NirIntrinsicKind.load_barycentric_centroid, ⟨2, 32, 2⟩, 2, 0, 0, 0, []⟩
    (Or.inr (Or.inl rfl))

/-- Counterexample to C2 as stated: `load_barycentric_pixel` is not among the
four handled cases the claim enumerates (interpolated/flat input load, vertex
attribute load, vertex output store, fragment render-target store), yet
selecting it does not terminate fatally — it succeeds — and it is silently
skipped, appending no translation at all. -/
theorem agx_emit_intrinsic_c2_counterexample :
    agx_emit_intrinsic ⟨Stage.fragment, [], []⟩
      ⟨NirIntrinsicKind.load_barycentric_pixel, ⟨0, 32, 1⟩, 1, 0, 0, 0, []⟩ =
      Except.ok [] := rfl

/-- Amended C2: every intrinsic outside the handled case list — the five
barycentric loads (which succeed while appending nothing, their translation
being deferred to the consuming interpolated-input load), the interpolated or
flat input loads, and the output stores — terminates fatally with a diagnostic
naming the unhandled intrinsic; and the only intrinsics that succeed while
appending zero instructions are the five barycentric loads. -/
theorem agx_emit_intrinsic_dispatch_spec (sh : AgxShader)
    (instr : NirIntrinsic) :
    ((∀ name, instr.intrinsic = NirIntrinsicKind.otherIntr name →
      agx_emit_intrinsic sh instr =
        Except.error ("Unhandled intrinsic " ++ name)) ∧
     (agx_emit_intrinsic sh instr = Except.ok [] →
      (instr.intrinsic = NirIntrinsicKind.load_barycentric_pixel ∨
       instr.intrinsic = NirIntrinsicKind.load_barycentric_centroid ∨
       instr.intrinsic = NirIntrinsicKind.load_barycentric_sample ∨
       instr.intrinsic = NirIntrinsicKind.load_barycentric_at_sample ∨
       instr.intrinsic = NirIntrinsicKind.load_barycentric_at_offset))) := by
  constructor
  · intro name hin
    simp [agx_emit_intrinsic, hin]
  · intro h
    match hin : instr.intrinsic with
    | NirIntrinsicKind.load_barycentric_pixel => exact Or.inl rfl
    | NirIntrinsicKind.load_barycentric_centroid => exact Or.inr (Or.inl rfl)
    | NirIntrinsicKind.load_barycentric_sample =>
      exact Or.inr (Or.inr (Or.inl rfl))
    | NirIntrinsicKind.load_barycentric_at_sample =>
      exact Or.inr (Or.inr (Or.inr (Or.inl rfl)))
    | NirIntrinsicKind.load_barycentric_at_offset =>
      exact Or.inr (Or.inr (Or.inr (Or.inr rfl)))
    | NirIntrinsicKind.load_interpolated_input =>
      exfalso
      simp only [agx_emit_intrinsic, hin] at h
      match hstage : sh.stage with
      | Stage.fragment =>
        rw [hstage] at h
        exact agx_emit_load_vary_ne_ok_nil instr h
      | Stage.vertex =>
        rw [hstage] at h
        simp [agx_emit_load_attr] at h
      | Stage.otherStage =>
        rw [hstage] at h
        simp at h
    | NirIntrinsicKind.load_input =>
      exfalso
      simp only [agx_emit_intrinsic, hin] at h
      match hstage : sh.stage with
      | Stage.fragment =>
        rw [hstage] at h
        exact agx_emit_load_vary_ne_ok_nil instr h
      | Stage.vertex =>
        rw [hstage] at h
        simp [agx_emit_load_attr] at h
      | Stage.otherStage =>
        rw [hstage] at h
        simp at h
    | NirIntrinsicKind.store_output =>
      exfalso
      simp only [agx_emit_intrinsic, hin] at h
      match hstage : sh.stage with
      | Stage.fragment =>
        rw [hstage] at h
        exact agx_emit_fragment_out_ne_ok_nil sh instr h
      | Stage.vertex =>
        rw [hstage] at h
        exact agx_emit_store_vary_ne_ok_nil instr h
      | Stage.otherStage =>
        rw [hstage] at h
        simp at h
    | NirIntrinsicKind.otherIntr name =>
      exfalso
      simp [agx_emit_intrinsic, hin] at h

/-- Witness for the amended C2 at a concrete unhandled intrinsic. -/
theorem agx_emit_intrinsic_dispatch_spec_witness :
    agx_emit_intrinsic ⟨Stage.fragment, [], []⟩
      ⟨NirIntrinsicKind.otherIntr "load_ubo", ⟨0, 32, 1⟩, 1, 0, 0, 0, []⟩ =
      Except.error "Unhandled intrinsic load_ubo" :=
  (agx_emit_intrinsic_dispatch_spec ⟨Stage.fragment, [], []⟩
    ⟨NirIntrinsicKind.otherIntr "load_ubo", ⟨0, 32, 1⟩, 1, 0, 0, 0, []⟩).1
    "load_ubo" rfl

/-- NIR ALU opcodes as the selector distinguishes them: the vector packs
`vec2` .. `vec16`, and `otherOp` for every other arithmetic opcode, carrying
its name (`nir_op_infos[..].name`) and input count. -/
inductive NirOp where
  | vec2
  | vec3
  | vec4
  | vec8
  | vec16
  | otherOp (name : String) (inputs : Nat)
deriving DecidableEq, Repr

/-- `nir_op_is_vec`: the vector-pack opcodes. -/
def nir_op_is_vec : NirOp → Bool
  | NirOp.vec2 => true
  | NirOp.vec3 => true
  | NirOp.vec4 => true
  | NirOp.vec8 => true
  | NirOp.vec16 => true
  | NirOp.otherOp _ _ => false

/-- `nir_op_infos[op].num_inputs`. -/
def nir_op_num_inputs : NirOp → Nat
  | NirOp.vec2 => 2
  | NirOp.vec3 => 3
  | NirOp.vec4 => 4
  | NirOp.vec8 => 8
  | NirOp.vec16 => 16
  | NirOp.otherOp _ n => n

/-- A `nir_alu_src`: the source value, the first swizzle channel, and the
negate/absolute-value modifiers. -/
structure NirAluSrc where
  src : NirSrc
  swizzle0 : Nat
  negate : Bool
  abs : Bool
deriving DecidableEq, Repr

/-- A `nir_alu_instr`: opcode, destination and ALU sources. -/
structure NirAlu where
  op : NirOp
  dest : NirSSADef
  srcs : List NirAluSrc
deriving DecidableEq, Repr

/-- `agx_alu_src_index`: checks well-formedness of the source (legal bit width,
no negate/abs modifiers, swizzle channel within the component count) and
returns the scalar operand to use; a multi-component source is transparently
lowered by interposing a `p_extract` channel-extraction instruction whose
destination is a fresh virtual register (modelled from the spec: `agx_p_extract`
draws the register from the context's allocation counter, returned
incremented). -/
def agx_alu_src_index (alloc : Nat) (src : NirAluSrc) :
    Except String (AgxIndex × List AgxInstr × Nat) :=
  if ¬ (src.src.bit_size = 16 ∨ src.src.bit_size = 32 ∨ src.src.bit_size = 64) then
    Except.error "assert: bitsize == 16 || bitsize == 32 || bitsize == 64"
  else if src.negate || src.abs then
    Except.error "assert: !(src.negate || src.abs)"
  else if ¬ src.swizzle0 < src.src.num_components then
    Except.error "assert: channel < comps"
  else if 1 < src.src.num_components then
    Except.ok (AgxIndex.reg alloc src.src.bit_size,
      [AgxInstr.p_extract (AgxIndex.reg alloc src.src.bit_size)
        (agx_src_index src.src) src.swizzle0], alloc + 1)
  else
    Except.ok (agx_src_index src.src, [], alloc)

/-- Sequential selection of the ALU sources actually read (`s0` .. `s3`):
threads the allocation counter and concatenates the interposed extraction
instructions in order. -/
def agx_alu_srcs : Nat → List NirAluSrc → Except String (List AgxIndex × List AgxInstr × Nat)
  | alloc, [] => Except.ok ([], [], alloc)
  | alloc, s :: rest =>
    match agx_alu_src_index alloc s with
    | Except.error e => Except.error e
    | Except.ok (idx, ins, alloc1) =>
      match agx_alu_srcs alloc1 rest with
      | Except.error e => Except.error e
      | Except.ok (idxs, ins2, alloc2) => Except.ok (idx :: idxs, ins ++ ins2, alloc2)

/-- `agx_emit_alu`: asserts a scalar destination (or a vector-pack opcode) of
width 16/32/64, selects up to four scalar sources, then dispatches on the
opcode: `vec2`/`vec3`/`vec4` lower to one `p_combine`; `vec8`/`vec16` and every
other opcode are fatal.  Returns the appended instructions and the new
allocation counter. -/
def agx_emit_alu (alloc : Nat) (instr : NirAlu) :
    Except String (List AgxInstr × Nat) :=
  if ¬ (instr.dest.num_components = 1 ∨ nir_op_is_vec instr.op) then
    Except.error "assert: comps == 1 || nir_op_is_vec(instr->op)"
  else if ¬ (instr.dest.bit_size = 16 ∨ instr.dest.bit_size = 32 ∨
      instr.dest.bit_size = 64) then
    Except.error "assert: sz == 16 || sz == 32 || sz == 64"
  else if instr.srcs.length < min (nir_op_num_inputs instr.op) 4 then
    Except.error "ill-formed ALU instruction: missing sources"
  else
    match agx_alu_srcs alloc (instr.srcs.take (min (nir_op_num_inputs instr.op) 4)) with
    | Except.error e => Except.error e
    | Except.ok (idxs, pre, alloc1) =>
      match instr.op with
      | NirOp.vec2 =>
        Except.ok (pre ++ [AgxInstr.p_combine (agx_dest_index instr.dest) (idxs.getD 0 AgxIndex.null)
          (idxs.getD 1 AgxIndex.null) (idxs.getD 2 AgxIndex.null)
          (idxs.getD 3 AgxIndex.null)], alloc1)
      | NirOp.vec3 =>
        Except.ok (pre ++ [AgxInstr.p_combine (agx_dest_index instr.dest) (idxs.getD 0 AgxIndex.null)
          (idxs.getD 1 AgxIndex.null) (idxs.getD 2 AgxIndex.null)
          (idxs.getD 3 AgxIndex.null)], alloc1)
      | NirOp.vec4 =>
        Except.ok (pre ++ [AgxInstr.p_combine (agx_dest_index instr.dest) (idxs.getD 0 AgxIndex.null)
          (idxs.getD 1 AgxIndex.null) (idxs.getD 2 AgxIndex.null)
          (idxs.getD 3 AgxIndex.null)], alloc1)
      | NirOp.vec8 => Except.error "unreachable: should have been lowered"
      | NirOp.vec16 => Except.error "unreachable: should have been lowered"
      | NirOp.otherOp name _ => Except.error ("Unhandled ALU op " ++ name)

/-- Every instruction interposed by a single ALU source selection is a channel
extraction. -/
theorem agx_alu_src_index_extracts (alloc : Nat) (src : NirAluSrc)
    (idx : AgxIndex) (ins : List AgxInstr) (alloc2 : Nat)
    (h : agx_alu_src_index alloc src = Except.ok (idx, ins, alloc2)) :
    ∀ i ∈ ins, ∃ d s c, i = AgxInstr.p_extract d s c := by
  intro i hi
  unfold agx_alu_src_index at h
  by_cases hb : ¬ (src.src.bit_size = 16 ∨ src.src.bit_size = 32 ∨
      src.src.bit_size = 64)
  · rw [if_pos hb] at h; cases h
  · rw [if_neg hb] at h
    by_cases hm : (src.negate || src.abs) = true
    · rw [if_pos hm] at h; cases h
    · rw [if_neg hm] at h
      by_cases hch : ¬ src.swizzle0 < src.src.num_components
      · rw [if_pos hch] at h; cases h
      · rw [if_neg hch] at h
        by_cases hc : 1 < src.src.num_components
        · rw [if_pos hc] at h
          simp only [Except.ok.injEq, Prod.mk.injEq] at h
          obtain ⟨-, h2, -⟩ := h
          rw [← h2] at hi
          simp only [List.mem_singleton] at hi
          exact ⟨_, _, _, hi⟩
        · rw [if_neg hc] at h
          simp only [Except.ok.injEq, Prod.mk.injEq] at h
          obtain ⟨-, h2, -⟩ := h
          rw [← h2] at hi
          cases hi

/-- Every instruction interposed by ALU source selection is a channel
extraction. -/
theorem agx_alu_srcs_extracts (l : List NirAluSrc) :
    ∀ alloc idxs ins alloc2,
      agx_alu_srcs alloc l = Except.ok (idxs, ins, alloc2) →
      ∀ i ∈ ins, ∃ d s c, i = AgxInstr.p_extract d s c := by
  induction l with
  | nil =>
    intro alloc idxs ins alloc2 h i hi
    unfold agx_alu_srcs at h
    simp only [Except.ok.injEq, Prod.mk.injEq] at h
    obtain ⟨-, h2, -⟩ := h
    rw [← h2] at hi
    cases hi
  | cons s rest ih =>
    intro alloc idxs ins alloc2 h i hi
    unfold agx_alu_srcs at h
    split at h
    · cases h
    · rename_i idx ins1 alloc1 h1
      split at h
      · cases h
      · rename_i idxs2 ins2 alloc3 h2
        simp only [Except.ok.injEq, Prod.mk.injEq] at h
        obtain ⟨-, hins, -⟩ := h
        rw [← hins] at hi
        rcases List.mem_append.mp hi with hi | hi
        · exact agx_alu_src_index_extracts alloc s idx ins1 alloc1 h1 i hi
        · exact ih alloc1 idxs2 ins2 alloc3 h2 i hi

/-- Spec statement for C6 (ALU selection).  A 2/3/4-way vector pack whose
sources select successfully emits exactly the interposed channel extractions
followed by one combine instruction; every opcode other than a 2/3/4-way pack
is fatal; a source carrying a negate or absolute-value modifier is fatal; and
a well-formed multi-component source is transparently lowered through a fresh
channel-extraction instruction. -/
theorem agx_emit_alu_spec (alloc : Nat) (instr : NirAlu) :
    ((instr.op = NirOp.vec2 ∨ instr.op = NirOp.vec3 ∨ instr.op = NirOp.vec4) →
     (instr.dest.bit_size = 16 ∨ instr.dest.bit_size = 32 ∨
       instr.dest.bit_size = 64) →
     ¬ instr.srcs.length < min (nir_op_num_inputs instr.op) 4 →
     ∀ idxs pre alloc1,
       agx_alu_srcs alloc (instr.srcs.take (min (nir_op_num_inputs instr.op) 4)) =
         Except.ok (idxs, pre, alloc1) →
       agx_emit_alu alloc instr =
         Except.ok (pre ++ [AgxInstr.p_combine (agx_dest_index instr.dest)
           (idxs.getD 0 AgxIndex.null) (idxs.getD 1 AgxIndex.null)
           (idxs.getD 2 AgxIndex.null) (idxs.getD 3 AgxIndex.null)], alloc1) ∧
       (∀ i ∈ pre, ∃ d s c, i = AgxInstr.p_extract d s c)) ∧
    (instr.op ≠ NirOp.vec2 → instr.op ≠ NirOp.vec3 → instr.op ≠ NirOp.vec4 →
      fatal (agx_emit_alu alloc instr)) ∧
    (∀ src : NirAluSrc, (src.negate || src.abs) = true →
      fatal (agx_alu_src_index alloc src)) ∧
    (∀ src : NirAluSrc,
      (src.src.bit_size = 16 ∨ src.src.bit_size = 32 ∨ src.src.bit_size = 64) →
      src.negate = false → src.abs = false →
      src.swizzle0 < src.src.num_components →
      1 < src.src.num_components →
      agx_alu_src_index alloc src =
        Except.ok (AgxIndex.reg alloc src.src.bit_size,
          [AgxInstr.p_extract (AgxIndex.reg alloc src.src.bit_size)
            (agx_src_index src.src) src.swizzle0], alloc + 1)) := by
  refine ⟨?_, ?_, ?_, ?_⟩
  · intro hop hsz hlen idxs pre alloc1 hsrcs
    refine ⟨?_, agx_alu_srcs_extracts _ alloc idxs pre alloc1 hsrcs⟩
    rcases hop with hop | hop | hop
    · rw [hop] at hlen hsrcs
      rw [show nir_op_num_inputs NirOp.vec2 ⊓ 4 = 2 from by decide]
        at hlen hsrcs
      simp [agx_emit_alu, hop, nir_op_is_vec, nir_op_num_inputs, hsz, hlen,
        hsrcs]
    · rw [hop] at hlen hsrcs
      rw [show nir_op_num_inputs NirOp.vec3 ⊓ 4 = 3 from by decide]
        at hlen hsrcs
      simp [agx_emit_alu, hop, nir_op_is_vec, nir_op_num_inputs, hsz, hlen,
        hsrcs]
    · rw [hop] at hlen hsrcs
      rw [show nir_op_num_inputs NirOp.vec4 ⊓ 4 = 4 from by decide]
        at hlen hsrcs
      simp [agx_emit_alu, hop, nir_op_is_vec, nir_op_num_inputs, hsz, hlen,
        hsrcs]
  · intro h2 h3 h4
    cases hop : instr.op with
    | vec2 => exact absurd hop h2
    | vec3 => exact absurd hop h3
    | vec4 => exact absurd hop h4
    | vec8 =>
      simp only [agx_emit_alu, hop, nir_op_is_vec, nir_op_num_inputs]
      unfold fatal
      repeat' split
      all_goals rfl
    | vec16 =>
      simp only [agx_emit_alu, hop, nir_op_is_vec, nir_op_num_inputs]
      unfold fatal
      repeat' split
      all_goals rfl
    | otherOp name n =>
      simp only [agx_emit_alu, hop, nir_op_is_vec, nir_op_num_inputs]
      unfold fatal
      repeat' split
      all_goals rfl
  · intro src hmod
    unfold fatal agx_alu_src_index
    repeat' split
    all_goals first | rfl | simp_all
  · intro src hsz hneg habs hch hcomps
    rcases hsz with h | h | h <;>
      simp [agx_alu_src_index, h, hneg, habs, hch, hcomps, agx_src_index]

/-- Witness for C6: a `vec2` of the two channels of one 32-bit two-component
source lowers to two channel extractions followed by one combine. -/
theorem agx_emit_alu_spec_witness :
    agx_emit_alu 10
      ⟨NirOp.vec2, ⟨5, 32, 2⟩,
        [⟨⟨4, 32, 2, none, none⟩, 0, false, false⟩,
         ⟨⟨4, 32, 2, none, none⟩, 1, false, false⟩]⟩ =
      Except.ok ([AgxInstr.p_extract (AgxIndex.reg 10 32) (AgxIndex.reg 4 32) 0,
        AgxInstr.p_extract (AgxIndex.reg 11 32) (AgxIndex.reg 4 32) 1,
        AgxInstr.p_combine (AgxIndex.reg 5 32) (AgxIndex.reg 10 32)
          (AgxIndex.reg 11 32) AgxIndex.null AgxIndex.null], 12) :=
  ((agx_emit_alu_spec 10
    ⟨NirOp.vec2, ⟨5, 32, 2⟩,
      [⟨⟨4, 32, 2, none, none⟩, 0, false, false⟩,
       ⟨⟨4, 32, 2, none, none⟩, 1, false, false⟩]⟩).1
    (Or.inl rfl) (Or.inr (Or.inl rfl)) (by decide)
    [AgxIndex.reg 10 32, AgxIndex.reg 11 32]
    [AgxInstr.p_extract (AgxIndex.reg 10 32) (AgxIndex.reg 4 32) 0,
     AgxInstr.p_extract (AgxIndex.reg 11 32) (AgxIndex.reg 4 32) 1]
    12 rfl).1

/-- A NIR instruction as dispatched by `agx_emit_instr`: constant load,
intrinsic, ALU, texture, jump, or any other instruction type (which should
have been lowered away). -/
inductive NirInstr where
  | load_const (c : NirLoadConst)
  | intrinsic (i : NirIntrinsic)
  | alu (a : NirAlu)
  | tex
  | jump
  | otherInstr
deriving DecidableEq, Repr

/-- `agx_emit_instr`: dispatch on the instruction type.  The allocation
counter is threaded through because ALU selection may allocate extraction
temporaries; texture and jump instructions are fatal stubs. -/
def agx_emit_instr (sh : AgxShader) (alloc : Nat) (instr : NirInstr) :
    Except String (List AgxInstr × Nat) :=
  match instr with
  | NirInstr.load_const c =>
    match agx_emit_load_const c with
    | Except.error e => Except.error e
    | Except.ok ins => Except.ok (ins, alloc)
  | NirInstr.intrinsic i =>
    match agx_emit_intrinsic sh i with
    | Except.error e => Except.error e
    | Except.ok ins => Except.ok (ins, alloc)
  | NirInstr.alu a => agx_emit_alu alloc a
  | NirInstr.tex => Except.error "unreachable: stub"
  | NirInstr.jump => Except.error "unreachable: stub"
  | NirInstr.otherInstr => Except.error "unreachable: should have been lowered"

/-- A straight-line source basic block: its instruction sequence. -/
structure NirBlock where
  instrs : List NirInstr
deriving DecidableEq, Repr

/-- A structured control-flow node (`nir_cf_node`): a straight-line block, a
conditional, a loop, or any other node kind. -/
inductive NirCfNode where
  | block (b : NirBlock)
  | ifNode
  | loopNode
  | otherNode
deriving DecidableEq, Repr

/-- Whether a control-flow node is a straight-line block node. -/
def NirCfNode.isBlock : NirCfNode → Bool
  | NirCfNode.block _ => true
  | _ => false

/-- Modelled from the spec: a target basic block — a stable name and the
ordered, singly-owned sequence of pseudo-instructions (the predecessor set is
populated by callers and unused in this excerpt). -/
structure AgxBlock where
  name : Nat
  instructions : List AgxInstr
deriving DecidableEq, Repr

/-- Translation of a source block's instructions in their original order,
concatenating the per-instruction emissions (`nir_foreach_instr` in
`emit_block`). -/
def emit_instrs (sh : AgxShader) : Nat → List NirInstr → Except String (List AgxInstr × Nat)
  | alloc, [] => Except.ok ([], alloc)
  | alloc, i :: rest =>
    match agx_emit_instr sh alloc i with
    | Except.error e => Except.error e
    | Except.ok (ins, alloc1) =>
      match emit_instrs sh alloc1 rest with
      | Except.error e => Except.error e
      | Except.ok (ins2, alloc2) => Except.ok (ins ++ ins2, alloc2)

/-- `emit_block`: creates a fresh target block (appended by the caller to the
context's block list) holding the block's instructions translated in order.
The name is initialized to 0; names are assigned by the driver epilogue. -/
def emit_block (sh : AgxShader) (alloc : Nat) (b : NirBlock) :
    Except String (AgxBlock × Nat) :=
  match emit_instrs sh alloc b.instrs with
  | Except.error e => Except.error e
  | Except.ok (ins, alloc1) => Except.ok (AgxBlock.mk 0 ins, alloc1)

/-- Sequential emission of a list of straight-line blocks, in order. -/
def emit_blocks_seq (sh : AgxShader) : Nat → List NirBlock → Except String (List AgxBlock × Nat)
  | alloc, [] => Except.ok ([], alloc)
  | alloc, b :: rest =>
    match emit_block sh alloc b with
    | Except.error e => Except.error e
    | Except.ok (blk, alloc1) =>
      match emit_blocks_seq sh alloc1 rest with
      | Except.error e => Except.error e
      | Except.ok (blks, alloc2) => Except.ok (blk :: blks, alloc2)

/-- The C code's `start_block` update: keep the existing start block, or
designate the block just created (`count`, in creation order) when none
exists yet. -/
def startOr (startB : Option Nat) (count : Nat) : Option Nat :=
  match startB with
  | none => some count
  | some s => some s

/-- The walk of `emit_cf_list`: `startB` carries the C code's `start_block`
(the index, in creation order, of the first block created; `none` while still
null) and `count` the number of blocks created so far.  Conditional nodes,
loop nodes and unknown node kinds are fatal. -/
def emit_cf_list_walk (sh : AgxShader) :
    Nat → Option Nat → Nat → List NirCfNode →
    Except String (List AgxBlock × Option Nat × Nat)
  | alloc, startB, _, [] => Except.ok ([], startB, alloc)
  | alloc, startB, count, NirCfNode.block b :: rest =>
    match emit_block sh alloc b with
    | Except.error e => Except.error e
    | Except.ok (blk, alloc1) =>
      match emit_cf_list_walk sh alloc1 (startOr startB count) (count + 1) rest with
      | Except.error e => Except.error e
      | Except.ok (blks, s2, alloc2) => Except.ok (blk :: blks, s2, alloc2)
  | _, _, _, NirCfNode.ifNode :: _ =>
    Except.error "unreachable: if-statements todo"
  | _, _, _, NirCfNode.loopNode :: _ =>
    Except.error "unreachable: loops todo"
  | _, _, _, NirCfNode.otherNode :: _ =>
    Except.error "unreachable: Unknown control flow"

/-- `emit_cf_list`: walks the structured control-flow list, returning the
created blocks in creation order, the start block (the first block created,
as its index in creation order), and the final allocation counter. -/
def emit_cf_list (sh : AgxShader) (alloc : Nat) (l : List NirCfNode) :
    Except String (List AgxBlock × Option Nat × Nat) :=
  emit_cf_list_walk sh alloc none 0 l

/-- Once a start block exists, the walk over block nodes reduces to sequential
block emission, preserving the start block. -/
theorem emit_cf_list_walk_blocks (sh : AgxShader) (bs : List NirBlock) :
    ∀ alloc s count,
      emit_cf_list_walk sh alloc (some s) count (bs.map NirCfNode.block) =
        match emit_blocks_seq sh alloc bs with
        | Except.error e => Except.error e
        | Except.ok (blks, alloc2) => Except.ok (blks, some s, alloc2) := by
  induction bs with
  | nil => intro alloc s count; rfl
  | cons b rest ih =>
    intro alloc s count
    simp only [List.map_cons]
    unfold emit_cf_list_walk emit_blocks_seq
    cases emit_block sh alloc b with
    | error e => rfl
    | ok p =>
      obtain ⟨blk, alloc1⟩ := p
      simp only [startOr]
      simp only [ih alloc1 s (count + 1)]
      cases emit_blocks_seq sh alloc1 rest with
      | error e => rfl
      | ok q => obtain ⟨blks, alloc2⟩ := q; rfl

/-- If a block of an all-blocks list is emitted, so is the block count. -/
theorem emit_blocks_seq_length (sh : AgxShader) (bs : List NirBlock) :
    ∀ alloc blks alloc2,
      emit_blocks_seq sh alloc bs = Except.ok (blks, alloc2) →
      blks.length = bs.length := by
  induction bs with
  | nil =>
    intro alloc blks alloc2 h
    unfold emit_blocks_seq at h
    simp only [Except.ok.injEq, Prod.mk.injEq] at h
    obtain ⟨h1, -⟩ := h
    rw [← h1]
    rfl
  | cons b rest ih =>
    intro alloc blks alloc2 h
    unfold emit_blocks_seq at h
    split at h
    · cases h
    · rename_i blk alloc1 h1
      split at h
      · cases h
      · rename_i blks2 alloc3 h2
        simp only [Except.ok.injEq, Prod.mk.injEq] at h
        obtain ⟨h3, -⟩ := h
        rw [← h3]
        simp [ih alloc1 blks2 alloc3 h2]

/-- A control-flow list containing a non-block node always terminates
fatally, whatever precedes the node. -/
theorem emit_cf_list_walk_nonblock_fatal (sh : AgxShader)
    (l : List NirCfNode) :
    ∀ alloc startB count, (∃ n ∈ l, n.isBlock = false) →
      fatal (emit_cf_list_walk sh alloc startB count l) := by
  induction l with
  | nil =>
    intro alloc startB count h
    obtain ⟨n, hn, -⟩ := h
    cases hn
  | cons node rest ih =>
    intro alloc startB count h
    obtain ⟨n, hn, hnb⟩ := h
    cases node with
    | block b =>
      have hrest : ∃ n ∈ rest, n.isBlock = false := by
        rcases List.mem_cons.mp hn with h1 | h1
        · rw [h1] at hnb; cases hnb
        · exact ⟨n, h1, hnb⟩
      unfold emit_cf_list_walk
      cases emit_block sh alloc b with
      | error e => rfl
      | ok p =>
        obtain ⟨blk, alloc1⟩ := p
        have hf := ih alloc1 (startOr startB count) (count + 1) hrest
        unfold fatal at hf ⊢
        simp only []
        cases hw : emit_cf_list_walk sh alloc1 (startOr startB count)
            (count + 1) rest with
        | error e => rfl
        | ok q => rw [hw] at hf; cases hf
    | ifNode => rfl
    | loopNode => rfl
    | otherNode => rfl

/-- Spec statement for C7 (CFG construction).  Over a list of straight-line
block nodes, `emit_cf_list` performs exactly sequential block emission — one
target block per source block node, appended in walk order with the contained
instructions translated in order by `emit_block` — and designates the first
block created (index 0) as the entry whenever any block exists; a list
containing a conditional, loop, or other node kind terminates fatally. -/
theorem emit_cf_list_spec (sh : AgxShader) (alloc : Nat) :
    (∀ bs : List NirBlock,
      emit_cf_list sh alloc (bs.map NirCfNode.block) =
        match emit_blocks_seq sh alloc bs with
        | Except.error e => Except.error e
        | Except.ok (blks, alloc2) =>
          Except.ok (blks, if bs.isEmpty then none else some 0, alloc2)) ∧
    (∀ (bs : List NirBlock) blks s alloc2,
      emit_cf_list sh alloc (bs.map NirCfNode.block) =
        Except.ok (blks, s, alloc2) →
      blks.length = bs.length ∧ s = (if bs.isEmpty then none else some 0)) ∧
    (∀ l : List NirCfNode, (∃ n ∈ l, n.isBlock = false) →
      fatal (emit_cf_list sh alloc l)) := by
  have hmain : ∀ bs : List NirBlock,
      emit_cf_list sh alloc (bs.map NirCfNode.block) =
        match emit_blocks_seq sh alloc bs with
        | Except.error e => Except.error e
        | Except.ok (blks, alloc2) =>
          Except.ok (blks, if bs.isEmpty then none else some 0, alloc2) := by
    intro bs
    cases bs with
    | nil => rfl
    | cons b rest =>
      unfold emit_cf_list
      simp only [List.map_cons]
      unfold emit_cf_list_walk emit_blocks_seq
      cases emit_block sh alloc b with
      | error e => rfl
      | ok p =>
        obtain ⟨blk, alloc1⟩ := p
        simp only [startOr]
        simp only [emit_cf_list_walk_blocks sh rest alloc1 0 1]
        cases emit_blocks_seq sh alloc1 rest with
        | error e => rfl
        | ok q =>
          obtain ⟨blks, alloc2⟩ := q
          simp [List.isEmpty]
  refine ⟨hmain, ?_, ?_⟩
  · intro bs blks s alloc2 h
    rw [hmain bs] at h
    cases hseq : emit_blocks_seq sh alloc bs with
    | error e => rw [hseq] at h; cases h
    | ok q =>
      obtain ⟨blks2, alloc3⟩ := q
      rw [hseq] at h
      simp only [Except.ok.injEq, Prod.mk.injEq] at h
      obtain ⟨h1, h2, -⟩ := h
      exact ⟨h1 ▸ emit_blocks_seq_length sh bs alloc blks2 alloc3 hseq,
        h2.symm⟩
  · intro l hl
    exact emit_cf_list_walk_nonblock_fatal sh l alloc none 0 hl

/-- Witness for C7: a one-block program (a single 16-bit constant load)
yields one target block holding one move-immediate, with entry index 0; and a
list containing a loop node is fatal. -/
theorem emit_cf_list_spec_witness :
    emit_cf_list ⟨Stage.fragment, [], []⟩ 0
        [NirCfNode.block ⟨[NirInstr.load_const ⟨⟨1, 16, 1⟩, 5⟩]⟩] =
      Except.ok ([AgxBlock.mk 0 [AgxInstr.mov_imm (AgxIndex.reg 1 16) 5]],
        some 0, 0) ∧
    fatal (emit_cf_list ⟨Stage.fragment, [], []⟩ 0 [NirCfNode.loopNode]) := by
  constructor
  · have h := (emit_cf_list_spec ⟨Stage.fragment, [], []⟩ 0).1
      [⟨[NirInstr.load_const ⟨⟨1, 16, 1⟩, 5⟩]⟩]
    exact h.trans rfl
  · exact (emit_cf_list_spec ⟨Stage.fragment, [], []⟩ 0).2.2
      [NirCfNode.loopNode] ⟨NirCfNode.loopNode, by simp, rfl⟩

/-- The driver epilogue of `agx_compile_shader_nir`: append one unconditional
`stop` terminator and eight `trap` instructions to the last block, then assign
block names 0, 1, 2, ... in creation order. -/
def agx_terminate_and_name (blocks : List AgxBlock) : List AgxBlock :=
  let blocks1 :=
    match blocks.getLast? with
    | none => blocks
    | some last =>
      blocks.dropLast ++ [AgxBlock.mk last.name (last.instructions ++
        (AgxInstr.stop :: List.replicate 8 AgxInstr.trap))]
  blocks1.enum.map (fun p => AgxBlock.mk p.1 p.2.instructions)

/-- Spec statement for C8 (driver epilogue).  For a nonempty block list, the
epilogue appends to the last block exactly one `stop` followed by exactly
eight `trap` instructions, leaves every other block's instructions unchanged,
and assigns the names 0, 1, 2, ... in creation order. -/
theorem agx_terminate_and_name_spec (blocks : List AgxBlock)
    (h : blocks ≠ []) :
    (agx_terminate_and_name blocks).map AgxBlock.instructions =
      blocks.dropLast.map AgxBlock.instructions ++
        [(blocks.getLast h).instructions ++
          (AgxInstr.stop :: List.replicate 8 AgxInstr.trap)] ∧
    (agx_terminate_and_name blocks).map AgxBlock.name =
      List.range blocks.length := by
  have h5 : blocks.getLast? = some (blocks.getLast h) :=
    List.getLast?_eq_getLast blocks h
  have hlen : (blocks.dropLast ++ [AgxBlock.mk (blocks.getLast h).name
      ((blocks.getLast h).instructions ++
        (AgxInstr.stop :: List.replicate 8 AgxInstr.trap))]).length =
      blocks.length := by
    simp [List.length_dropLast]
    have := List.length_pos.mpr h
    omega
  constructor
  · simp only [agx_terminate_and_name, h5, List.map_map]
    rw [show ((fun b => b.instructions) ∘
        (fun p : Nat × AgxBlock => AgxBlock.mk p.1 p.2.instructions)) =
        (fun b => b.instructions) ∘ Prod.snd from rfl]
    rw [← List.map_map, List.enum_map_snd, List.map_append]
    rfl
  · simp only [agx_terminate_and_name, h5, List.map_map]
    rw [show ((fun b => b.name) ∘
        (fun p : Nat × AgxBlock => AgxBlock.mk p.1 p.2.instructions)) =
        Prod.fst from rfl]
    rw [List.enum_map_fst, hlen]

/-- Witness for C8 at a concrete two-block list. -/
theorem agx_terminate_and_name_spec_witness :
    (agx_terminate_and_name [AgxBlock.mk 7 [AgxInstr.writeout 1],
        AgxBlock.mk 9 []]).map AgxBlock.instructions =
      [[AgxInstr.writeout 1],
        AgxInstr.stop :: List.replicate 8 AgxInstr.trap] ∧
    (agx_terminate_and_name [AgxBlock.mk 7 [AgxInstr.writeout 1],
        AgxBlock.mk 9 []]).map AgxBlock.name = [0, 1] := by
  have h := agx_terminate_and_name_spec
    [AgxBlock.mk 7 [AgxInstr.writeout 1], AgxBlock.mk 9 []] (by simp)
  exact ⟨h.1, h.2⟩

end AGX
